import Mathlib

/-
Verification of the query-resolution loop of the MCP FastAPI sample client.

The embedding models `MCPClient.process_query` (src/client.py) and the
`/query` endpoint handler `handle_query` (src/main.py).  External services
(the MCP session, tool listing, the Anthropic completion endpoint, tool
execution) are modelled as an oracle environment `Env`; the loop itself is
translated statement by statement from the Python source.

Python's `assistant_content` list is shared by reference with every
assistant turn appended to `messages` (the `content` key stores the list
object itself, which is mutated by later `assistant_content.append` calls).
The embedding keeps that aliasing explicit: an assistant turn is stored as
`Turn.assistantAlias`, and is resolved against the current buffer at the
moment a completion call is made, exactly as the Anthropic SDK serialises
the (shared, possibly already mutated) list at call time.
-/

/-- A content block of a model response: `text`, `tool_use`
(`content.id`, `content.name`, `content.input` rendered as a string),
or any other block type (only `content.type` retained). -/
inductive ContentBlock where
  | text (s : String)
  | toolUse (tid name input : String)
  | other (ty : String)
deriving DecidableEq, Repr

/-- A tool descriptor as built from `session.list_tools()` in Step 1 of
`process_query`. -/
structure Tool where
  name : String
  description : String
  inputSchema : String
deriving DecidableEq, Repr

/-- An entry of the Python `messages` list, kept symbolic so that the
aliasing of `assistant_content` is visible: `assistantAlias` stands for a
`{"role": "assistant", "content": assistant_content}` dict holding a
reference to the shared buffer. -/
inductive Turn where
  | userQuery (q : String)
  | assistantAlias
  | toolResultTurn (toolUseId payload : String)
deriving DecidableEq, Repr

/-- A transcript turn as actually serialised when `messages` is sent to the
completion endpoint: the aliased assistant buffer has been resolved to its
contents at call time. -/
inductive RTurn where
  | user (q : String)
  | assistant (content : List ContentBlock)
  | toolResult (toolUseId payload : String)
deriving DecidableEq, Repr

/-- Resolve one symbolic turn against the current `assistant_content`
buffer. -/
def resolveTurn (buf : List ContentBlock) : Turn → RTurn
  | .userQuery q => .user q
  | .assistantAlias => .assistant buf
  | .toolResultTurn i p => .toolResult i p

/-- Resolve the whole `messages` list at completion-call time. -/
def resolve (buf : List ContentBlock) (ts : List Turn) : List RTurn :=
  ts.map (resolveTurn buf)

/-- Observable external calls made while resolving one query:
`completionCall` records one `anthropic.messages.create` invocation with
the transcript it was given; `toolCall` records one `session.call_tool`
invocation with the tool name and arguments. -/
inductive Event where
  | completionCall (transcript : List RTurn)
  | toolCall (name input : String)
deriving DecidableEq, Repr

/-- Kind of an external call, forgetting its payload. -/
inductive EventKind where
  | completion
  | tool
deriving DecidableEq, Repr

/-- The kind of an event. -/
def Event.kind : Event → EventKind
  | .completionCall _ => .completion
  | .toolCall _ _ => .tool

/-- Oracle environment standing for the external collaborators of one
`process_query` run.  Errors carry the rendered cause strings; for the
operations that run directly under the `except*` handler
(session establishment, `list_tools`, the first `messages.create`) a
failure is the list of exceptions of the caught exception group. -/
structure Env where
  /-- Outcome of `streamablehttp_client` + `ClientSession` entry +
  `session.initialize()`. -/
  sessionInit : Except (List String) Unit
  /-- Outcome of `session.list_tools()` (Step 1). -/
  listTools : Except (List String) (List Tool)
  /-- Outcome of the first `anthropic.messages.create` call (Step 3):
  the `response.content` block list, or failure. -/
  firstCompletion : Except (List String) (List ContentBlock)
  /-- Outcome of the k-th `session.call_tool` invocation (Step 5),
  0-indexed in call order: the result content, or the rendered exception. -/
  toolOutcome : Nat → Except String String
  /-- Outcome of the k-th follow-up `anthropic.messages.create` call
  (Step 6), 0-indexed in call order. -/
  followupCompletion : Nat → Except String (List ContentBlock)

/-- Mutable state of the Step 4 block loop: `buf` is `assistant_content`,
`turns` is `messages`, `finalText` is `final_text`, `t` and `f` count the
`call_tool` and follow-up `messages.create` invocations made so far, and
`trace` records all external calls in order. -/
structure LoopState where
  buf : List ContentBlock
  turns : List Turn
  finalText : List String
  t : Nat
  f : Nat
  trace : List Event
deriving DecidableEq, Repr

/-- The text strings of the `text` blocks of a block list, in order. -/
def textsOf : List ContentBlock → List String
  | [] => []
  | .text s :: bs => s :: textsOf bs
  | .toolUse _ _ _ :: bs => textsOf bs
  | .other _ :: bs => textsOf bs

/-- `(name, input)` of the `tool_use` blocks of a block list, in order. -/
def toolRequests : List ContentBlock → List (String × String)
  | [] => []
  | .toolUse _ n a :: bs => (n, a) :: toolRequests bs
  | .text _ :: bs => toolRequests bs
  | .other _ :: bs => toolRequests bs

/-- The observability marker appended to `final_text` after a successful
tool call: `f"[Tool backtick-name-backtick called with args {tool_args}]"`. -/
def toolMarker (name input : String) : String :=
  "[Tool `" ++ name ++ "` called with args " ++ input ++ "]"

/-- The inline error note appended when the per-tool `try` body raises:
`f"Error calling tool backtick-name-backtick: {e}"`. -/
def toolErrorNote (name cause : String) : String :=
  "Error calling tool `" ++ name ++ "`: " ++ cause

/-- One iteration of the Step 4 `for content in response.content` loop,
translated from src/client.py.  A `tool_use` block first invokes
`call_tool`; on failure only the error note is appended; on success the
marker is appended, the block joins `assistant_content`, `messages` is
extended with the (aliased) assistant turn and a `tool_result` user turn,
and the follow-up completion call is made, whose own failure is caught by
the same `except Exception` and rendered as another tool-error note. -/
def processBlock (env : Env) (st : LoopState) : ContentBlock → LoopState
  | .text s =>
      { st with finalText := st.finalText ++ [s],
                buf := st.buf ++ [ContentBlock.text s] }
  | .toolUse tid name input =>
      match env.toolOutcome st.t with
      | .error cause =>
          { st with trace := st.trace ++ [Event.toolCall name input],
                    t := st.t + 1,
                    finalText := st.finalText ++ [toolErrorNote name cause] }
      | .ok payload =>
          let buf2 := st.buf ++ [ContentBlock.toolUse tid name input]
          let turns2 := st.turns ++ [Turn.assistantAlias, Turn.toolResultTurn tid payload]
          let trace2 := st.trace ++
            [Event.toolCall name input, Event.completionCall (resolve buf2 turns2)]
          match env.followupCompletion st.f with
          | .error cause =>
              { buf := buf2, turns := turns2,
                finalText := st.finalText ++ [toolMarker name input, toolErrorNote name cause],
                t := st.t + 1, f := st.f + 1, trace := trace2 }
          | .ok fblocks =>
              { buf := buf2, turns := turns2,
                finalText := st.finalText ++ toolMarker name input :: textsOf fblocks,
                t := st.t + 1, f := st.f + 1, trace := trace2 }
  | .other _ => st

/-- The Step 4 loop over the first response's content blocks. -/
def runBlocks (env : Env) (st : LoopState) : List ContentBlock → LoopState
  | [] => st
  | b :: bs => runBlocks env (processBlock env st b) bs

/-- The aggregate `RuntimeError` message raised by the `except* Exception`
handler: `f"Error processing query via MCP: {eg}"`, with the group's
exceptions rendered. -/
def aggregateMsg (causes : List String) : String :=
  "Error processing query via MCP: " ++ String.intercalate "; " causes

/-- A Python exception escaping `process_query` / raised inside
`handle_query`, at the granularity the endpoint distinguishes. -/
inductive PyError where
  | runtimeError (msg : String)
  | otherError (msg : String)
deriving DecidableEq, Repr

/-- The loop state on entering Step 4: `assistant_content = []`,
`messages = [{"role": "user", "content": query}]`, `final_text = []`; the
first completion call has just been issued with that transcript. -/
def initState (q : String) : LoopState :=
  { buf := [], turns := [Turn.userQuery q], finalText := [], t := 0, f := 0,
    trace := [Event.completionCall (resolve [] [Turn.userQuery q])] }

/-- `MCPClient.process_query` (src/client.py): returns the trace of
external calls and either the newline-joined `final_text` or the single
aggregate `RuntimeError` produced by the `except*` handler. -/
def process_query (env : Env) (query : String) : List Event × Except PyError String :=
  match env.sessionInit with
  | .error cs => ([], .error (.runtimeError (aggregateMsg cs)))
  | .ok _ =>
    match env.listTools with
    | .error cs => ([], .error (.runtimeError (aggregateMsg cs)))
    | .ok _ =>
      match env.firstCompletion with
      | .error cs => ((initState query).trace, .error (.runtimeError (aggregateMsg cs)))
      | .ok blocks =>
        let st := runBlocks env (initState query) blocks
        (st.trace, .ok (String.intercalate "\n" st.finalText))

/-- An HTTP response of the `/query` endpoint: status code plus the
response / detail payload. -/
structure HttpResponse where
  status : Nat
  detail : String
deriving DecidableEq, Repr

/-- `handle_query` (src/main.py): `RuntimeError` from the client maps to
an `HTTPException` with status 500, any other exception to a
`JSONResponse` with status 400; success returns the answer with 200. -/
def handle_query (outcome : Except PyError String) : HttpResponse :=
  match outcome with
  | .ok r => { status := 200, detail := r }
  | .error (.runtimeError m) => { status := 500, detail := m }
  | .error (.otherError m) => { status := 400, detail := m }

/-- Whether a block is a `tool_use` block. -/
def ContentBlock.isToolUse : ContentBlock → Bool
  | .toolUse _ _ _ => true
  | .text _ => false
  | .other _ => false

/-- Whether a block is neither a `text` nor a `tool_use` block. -/
def ContentBlock.isOther : ContentBlock → Bool
  | .other _ => true
  | .text _ => false
  | .toolUse _ _ _ => false

/-- `(name, input)` of the `toolCall` events of a trace, in order. -/
def toolCallsOf : List Event → List (String × String)
  | [] => []
  | .toolCall n a :: es => (n, a) :: toolCallsOf es
  | .completionCall _ :: es => toolCallsOf es

/-- Number of `completionCall` events of a trace. -/
def completionCount : List Event → Nat
  | [] => 0
  | .completionCall _ :: es => completionCount es + 1
  | .toolCall _ _ :: es => completionCount es

/-- External calls contributed by one first-response block when its tool
call (if any) succeeds. -/
def kindDelta : ContentBlock → List EventKind
  | .toolUse _ _ _ => [EventKind.tool, EventKind.completion]
  | .text _ => []
  | .other _ => []

/-- The transcript sent by the `i`-th external call of a trace, when that
call is a completion call. -/
def transcriptAt (tr : List Event) (i : Nat) : Option (List RTurn) :=
  match tr[i]? with
  | some (Event.completionCall T) => some T
  | _ => none

/-! Helper lemmas about the loop. -/

theorem runBlocks_append (env : Env) (l1 l2 : List ContentBlock) (st : LoopState) :
    runBlocks env st (l1 ++ l2) = runBlocks env (runBlocks env st l1) l2 := by
  induction l1 generalizing st with
  | nil => rfl
  | cons b bs ih => simp [runBlocks, ih]

theorem toolCallsOf_append (l1 l2 : List Event) :
    toolCallsOf (l1 ++ l2) = toolCallsOf l1 ++ toolCallsOf l2 := by
  induction l1 with
  | nil => rfl
  | cons e es ih => cases e <;> simp [toolCallsOf, ih]

theorem completionCount_append (l1 l2 : List Event) :
    completionCount (l1 ++ l2) = completionCount l1 + completionCount l2 := by
  induction l1 with
  | nil => simp [completionCount]
  | cons e es ih =>
    cases e with
    | completionCall T =>
      simp [completionCount, ih]
      omega
    | toolCall n a => simp [completionCount, ih]

/-- A block loop run only appends to `final_text`, and every `text` block
of the processed block list contributes its own string to the appended
part. -/
theorem runBlocks_finalText_sublist (env : Env) (bs : List ContentBlock) :
    ∀ st : LoopState, ∃ d, (runBlocks env st bs).finalText = st.finalText ++ d
      ∧ List.Sublist (textsOf bs) d := by
  induction bs with
  | nil =>
    intro st
    exact ⟨[], by simp [runBlocks], by simp [textsOf]⟩
  | cons b bs ih =>
    intro st
    cases b with
    | text s =>
      obtain ⟨d, hd, hs⟩ := ih (processBlock env st (ContentBlock.text s))
      refine ⟨s :: d, ?_, ?_⟩
      · simpa [runBlocks, processBlock] using hd
      · simpa [textsOf] using List.Sublist.cons₂ s hs
    | toolUse tid name input =>
      cases hto : env.toolOutcome st.t with
      | error cause =>
        obtain ⟨d, hd, hs⟩ := ih (processBlock env st (ContentBlock.toolUse tid name input))
        refine ⟨toolErrorNote name cause :: d, ?_, ?_⟩
        · simpa [runBlocks, processBlock, hto] using hd
        · simpa [textsOf] using List.Sublist.cons _ hs
      | ok payload =>
        cases hfo : env.followupCompletion st.f with
        | error cause =>
          obtain ⟨d, hd, hs⟩ := ih (processBlock env st (ContentBlock.toolUse tid name input))
          refine ⟨toolMarker name input :: toolErrorNote name cause :: d, ?_, ?_⟩
          · simpa [runBlocks, processBlock, hto, hfo] using hd
          · simpa [textsOf] using List.Sublist.cons _ (List.Sublist.cons _ hs)
        | ok fblocks =>
          obtain ⟨d, hd, hs⟩ := ih (processBlock env st (ContentBlock.toolUse tid name input))
          refine ⟨toolMarker name input :: textsOf fblocks ++ d, ?_, ?_⟩
          · simpa [runBlocks, processBlock, hto, hfo] using hd
          · simp only [textsOf]
            exact List.Sublist.cons _ (hs.trans (List.sublist_append_right _ d))
    | other ty =>
      obtain ⟨d, hd, hs⟩ := ih st
      refine ⟨d, ?_, ?_⟩
      · simpa [runBlocks, processBlock] using hd
      · simpa [textsOf] using hs

/-- A block loop run over blocks containing no `tool_use` block only
appends the text strings to `final_text` and the text blocks to
`assistant_content`; `messages`, the call counters and the trace are
untouched. -/
theorem runBlocks_no_toolUse (env : Env) (bs : List ContentBlock)
    (h : ∀ b ∈ bs, b.isToolUse = false) :
    ∀ st : LoopState,
      runBlocks env st bs = { st with finalText := st.finalText ++ textsOf bs,
                                      buf := st.buf ++ (textsOf bs).map ContentBlock.text } := by
  induction bs with
  | nil => intro st; simp [runBlocks, textsOf]
  | cons b bs ih =>
    intro st
    cases b with
    | text s =>
      have hbs : ∀ b ∈ bs, b.isToolUse = false := fun b hb => h b (List.mem_cons_of_mem _ hb)
      rw [runBlocks, ih hbs]
      simp [processBlock, textsOf]
    | toolUse tid name input =>
      exact absurd (h _ (List.mem_cons_self _ _)) (by simp [ContentBlock.isToolUse])
    | other ty =>
      have hbs : ∀ b ∈ bs, b.isToolUse = false := fun b hb => h b (List.mem_cons_of_mem _ hb)
      rw [runBlocks, ih hbs]
      simp [processBlock, textsOf]

/-- Trace shape of a block loop run when every tool call it makes
succeeds: `call_tool` is invoked once per `tool_use` block, in block
order, and each such invocation is immediately followed by one follow-up
completion call. -/
theorem runBlocks_trace_spec (env : Env) (bs : List ContentBlock) :
    ∀ st : LoopState,
      (∀ i, i < (toolRequests bs).length → ∃ p, env.toolOutcome (st.t + i) = Except.ok p) →
      toolCallsOf (runBlocks env st bs).trace = toolCallsOf st.trace ++ toolRequests bs
      ∧ completionCount (runBlocks env st bs).trace
          = completionCount st.trace + (toolRequests bs).length
      ∧ (runBlocks env st bs).trace.map Event.kind
          = st.trace.map Event.kind ++ (bs.map kindDelta).flatten
      ∧ (runBlocks env st bs).t = st.t + (toolRequests bs).length := by
  induction bs with
  | nil =>
    intro st _
    simp [runBlocks, toolRequests, kindDelta]
  | cons b bs ih =>
    intro st h
    cases b with
    | text s =>
      have := ih (processBlock env st (ContentBlock.text s))
        (by simpa [processBlock, toolRequests] using h)
      simpa [runBlocks, processBlock, toolRequests, kindDelta] using this
    | toolUse tid name input =>
      obtain ⟨p, hp⟩ := by
        have := h 0 (by simp [toolRequests])
        simpa using this
      have hstep : ∀ st2 : LoopState,
          st2.trace = st.trace ++ [Event.toolCall name input, Event.completionCall
            (resolve (st.buf ++ [ContentBlock.toolUse tid name input])
              (st.turns ++ [Turn.assistantAlias, Turn.toolResultTurn tid p]))] →
          st2.t = st.t + 1 →
          toolCallsOf (runBlocks env st2 bs).trace
              = toolCallsOf st.trace ++ toolRequests (ContentBlock.toolUse tid name input :: bs)
          ∧ completionCount (runBlocks env st2 bs).trace
              = completionCount st.trace + (toolRequests (ContentBlock.toolUse tid name input :: bs)).length
          ∧ (runBlocks env st2 bs).trace.map Event.kind
              = st.trace.map Event.kind
                ++ ((ContentBlock.toolUse tid name input :: bs).map kindDelta).flatten
          ∧ (runBlocks env st2 bs).t
              = st.t + (toolRequests (ContentBlock.toolUse tid name input :: bs)).length := by
        intro st2 htr hc
        have hsh : ∀ i, i < (toolRequests bs).length →
            ∃ q, env.toolOutcome (st2.t + i) = Except.ok q := by
          intro i hi
          have := h (i + 1) (by simp [toolRequests]; omega)
          have harith : st.t + (i + 1) = st2.t + i := by omega
          rwa [harith] at this
        obtain ⟨h1, h2, h3, h4⟩ := ih st2 hsh
        refine ⟨?_, ?_, ?_, ?_⟩
        · rw [h1, htr, toolCallsOf_append]
          simp [toolCallsOf, toolRequests]
        · rw [h2, htr, completionCount_append]
          simp [completionCount, toolRequests]
          omega
        · rw [h3, htr, List.map_append]
          simp [Event.kind, kindDelta, toolRequests]
        · rw [h4, hc]
          simp [toolRequests]
          omega
      cases hfo : env.followupCompletion st.f with
      | error cause =>
        have := hstep (processBlock env st (ContentBlock.toolUse tid name input))
          (by simp [processBlock, hp, hfo]) (by simp [processBlock, hp, hfo])
        simpa [runBlocks] using this
      | ok fblocks =>
        have := hstep (processBlock env st (ContentBlock.toolUse tid name input))
          (by simp [processBlock, hp, hfo]) (by simp [processBlock, hp, hfo])
        simpa [runBlocks] using this
    | other ty =>
      have := ih (processBlock env st (ContentBlock.other ty))
        (by simpa [processBlock, toolRequests] using h)
      simpa [runBlocks, processBlock, toolRequests, kindDelta] using this

/-- Agreement of two loop states on every component except `final_text`. -/
def agrees (st st' : LoopState) : Prop :=
  st.buf = st'.buf ∧ st.turns = st'.turns ∧ st.t = st'.t ∧ st.f = st'.f ∧ st.trace = st'.trace

/-- The contents of follow-up completion responses influence only
`final_text`: two runs under environments with the same tool outcomes,
started from states agreeing on everything but `final_text`, stay in
agreement.  In particular no block of a follow-up response ever triggers a
tool call, a completion call, or a transcript extension. -/
theorem runBlocks_followup_agree (e1 e2 : Env) (hto : e1.toolOutcome = e2.toolOutcome)
    (bs : List ContentBlock) :
    ∀ st st' : LoopState, agrees st st' →
      agrees (runBlocks e1 st bs) (runBlocks e2 st' bs) := by
  induction bs with
  | nil => intro st st' h; simpa [runBlocks] using h
  | cons b bs ih =>
    intro st st' h
    obtain ⟨hb, hu, ht, hf, htr⟩ := h
    rw [runBlocks, runBlocks]
    apply ih
    cases b with
    | text s => exact ⟨by simp [processBlock, hb], by simp [processBlock, hu],
        by simp [processBlock, ht], by simp [processBlock, hf], by simp [processBlock, htr]⟩
    | toolUse tid name input =>
      have hout : e2.toolOutcome st'.t = e1.toolOutcome st.t := by rw [hto, ht]
      cases hto1 : e1.toolOutcome st.t with
      | error cause =>
        rw [processBlock, processBlock, hout, hto1]
        exact ⟨by simp [hb], by simp [hu], by simp [ht], by simp [hf], by simp [htr]⟩
      | ok payload =>
        rw [processBlock, processBlock, hout, hto1]
        cases e1.followupCompletion st.f <;> cases e2.followupCompletion st'.f <;>
          exact ⟨by simp [hb], by simp [hu], by simp [ht], by simp [hf], by simp [hb, hu, htr]⟩
    | other ty => exact ⟨hb, hu, ht, hf, htr⟩

/-- Blocks that are neither `text` nor `tool_use` are no-ops of the block
loop: removing them changes nothing of the final loop state. -/
theorem runBlocks_filter_other (env : Env) (bs : List ContentBlock) :
    ∀ st : LoopState,
      runBlocks env st (bs.filter fun b => !b.isOther) = runBlocks env st bs := by
  induction bs with
  | nil => intro st; rfl
  | cons b bs ih =>
    intro st
    cases b with
    | text s =>
      rw [List.filter_cons_of_pos (by rfl), runBlocks, runBlocks]
      exact ih _
    | toolUse tid name input =>
      rw [List.filter_cons_of_pos (by rfl), runBlocks, runBlocks]
      exact ih _
    | other ty =>
      rw [List.filter_cons_of_neg (by simp [ContentBlock.isOther]), runBlocks]
      exact ih st

/-- The block loop reads the environment only through `toolOutcome` and
`followupCompletion`. -/
theorem runBlocks_env_congr (e1 e2 : Env) (hto : e1.toolOutcome = e2.toolOutcome)
    (hfo : e1.followupCompletion = e2.followupCompletion) (bs : List ContentBlock) :
    ∀ st : LoopState, runBlocks e1 st bs = runBlocks e2 st bs := by
  induction bs with
  | nil => intro st; rfl
  | cons b bs ih =>
    intro st
    rw [runBlocks, runBlocks]
    have hb : processBlock e1 st b = processBlock e2 st b := by
      cases b with
      | text s => rfl
      | toolUse tid name input => rw [processBlock, processBlock, hto, hfo]
      | other ty => rfl
    rw [hb]
    exact ih _

/-! Claim theorems. -/

/-- Claim C1: for every query whose first model response contains zero
`tool_use` blocks, `process_query` returns exactly the newline-joined
concatenation of the text blocks of that single response, in block order;
`call_tool` is never invoked and no second completion call is made (the
trace is exactly the one initial completion call). -/
theorem no_tool_use_returns_joined_texts (env : Env) (q : String)
    (tools : List Tool) (blocks : List ContentBlock)
    (h1 : env.sessionInit = Except.ok ()) (h2 : env.listTools = Except.ok tools)
    (h3 : env.firstCompletion = Except.ok blocks)
    (h4 : ∀ b ∈ blocks, b.isToolUse = false) :
    process_query env q
      = ([Event.completionCall [RTurn.user q]],
         Except.ok (String.intercalate "\n" (textsOf blocks))) := by
  simp only [process_query, h1, h2, h3]
  rw [runBlocks_no_toolUse env blocks h4]
  simp [initState, resolve, resolveTurn]

def envC1 : Env :=
  { sessionInit := Except.ok (),
    listTools := Except.ok [{ name := "book_flight", description := "books a flight",
                              inputSchema := "object" }],
    firstCompletion := Except.ok [ContentBlock.text "4"],
    toolOutcome := fun _ => Except.ok "unused",
    followupCompletion := fun _ => Except.ok [] }

theorem no_tool_use_returns_joined_texts_witness :
    (∀ b ∈ [ContentBlock.text "4"], b.isToolUse = false)
    ∧ process_query envC1 "What is 2+2?"
        = ([Event.completionCall [RTurn.user "What is 2+2?"]],
           Except.ok (String.intercalate "\n" (textsOf [ContentBlock.text "4"]))) :=
  ⟨by decide,
   no_tool_use_returns_joined_texts envC1 "What is 2+2?" _ _ rfl rfl rfl (by decide)⟩

/-- Claim C2: if the tool call of some `tool_use` block of the first
response fails, `process_query` still returns normally: the answer
fragments are those produced before the failure (containing every text
block before it), then the inline error note carrying the tool's name and
the cause, then the fragments from the remaining blocks, which are still
processed (every text block after the failure contributes its string). -/
theorem tool_failure_isolated (env : Env) (q : String) (tools : List Tool)
    (pre post : List ContentBlock) (tid name input cause : String)
    (h1 : env.sessionInit = Except.ok ()) (h2 : env.listTools = Except.ok tools)
    (h3 : env.firstCompletion
            = Except.ok (pre ++ ContentBlock.toolUse tid name input :: post))
    (h4 : env.toolOutcome (runBlocks env (initState q) pre).t = Except.error cause) :
    List.Sublist (textsOf pre) (runBlocks env (initState q) pre).finalText
    ∧ ∃ d, (process_query env q).2
          = Except.ok (String.intercalate "\n"
              ((runBlocks env (initState q) pre).finalText ++ toolErrorNote name cause :: d))
      ∧ List.Sublist (textsOf post) d := by
  constructor
  · obtain ⟨d0, hd0, hs0⟩ := runBlocks_finalText_sublist env pre (initState q)
    rw [hd0]
    simpa [initState] using hs0
  · simp only [process_query, h1, h2, h3]
    have hsplit : pre ++ ContentBlock.toolUse tid name input :: post
        = pre ++ [ContentBlock.toolUse tid name input] ++ post := by simp
    rw [hsplit, runBlocks_append, runBlocks_append]
    set st1 := runBlocks env (initState q) pre with hst1
    have hone : runBlocks env st1 [ContentBlock.toolUse tid name input]
        = { st1 with trace := st1.trace ++ [Event.toolCall name input],
                     t := st1.t + 1,
                     finalText := st1.finalText ++ [toolErrorNote name cause] } := by
      simp [runBlocks, processBlock, h4]
    rw [hone]
    obtain ⟨d, hd, hs⟩ := runBlocks_finalText_sublist env post
      { st1 with trace := st1.trace ++ [Event.toolCall name input],
                 t := st1.t + 1,
                 finalText := st1.finalText ++ [toolErrorNote name cause] }
    refine ⟨d, ?_, hs⟩
    simp only [hd]
    simp

def envC2 : Env :=
  { sessionInit := Except.ok (), listTools := Except.ok [],
    firstCompletion := Except.ok [ContentBlock.text "hi",
      ContentBlock.toolUse "i7" "book_flight" "dest=SFO", ContentBlock.text "bye"],
    toolOutcome := fun _ => Except.error "timeout",
    followupCompletion := fun _ => Except.ok [] }

theorem tool_failure_isolated_witness :
    envC2.toolOutcome (runBlocks envC2 (initState "Book a flight") [ContentBlock.text "hi"]).t
        = Except.error "timeout"
    ∧ (List.Sublist (textsOf [ContentBlock.text "hi"])
          (runBlocks envC2 (initState "Book a flight") [ContentBlock.text "hi"]).finalText
       ∧ ∃ d, (process_query envC2 "Book a flight").2
             = Except.ok (String.intercalate "\n"
                 ((runBlocks envC2 (initState "Book a flight") [ContentBlock.text "hi"]).finalText
                   ++ toolErrorNote "book_flight" "timeout" :: d))
         ∧ List.Sublist (textsOf [ContentBlock.text "bye"]) d) :=
  ⟨rfl,
   tool_failure_isolated envC2 "Book a flight" [] [ContentBlock.text "hi"]
     [ContentBlock.text "bye"] "i7" "book_flight" "dest=SFO" "timeout" rfl rfl rfl rfl⟩

/-- Claim C3: when the first response contains N `tool_use` blocks and
every tool invocation succeeds, `call_tool` is invoked exactly N times,
in block order with the blocks' names and arguments, and exactly N
follow-up completion calls are made (N + 1 completion calls in total,
counting the initial one). -/
theorem tool_calls_in_order_counts (env : Env) (q : String) (tools : List Tool)
    (blocks : List ContentBlock)
    (h1 : env.sessionInit = Except.ok ()) (h2 : env.listTools = Except.ok tools)
    (h3 : env.firstCompletion = Except.ok blocks)
    (h4 : ∀ i, i < (toolRequests blocks).length → ∃ p, env.toolOutcome i = Except.ok p) :
    toolCallsOf (process_query env q).1 = toolRequests blocks
    ∧ completionCount (process_query env q).1 = (toolRequests blocks).length + 1 := by
  simp only [process_query, h1, h2, h3]
  obtain ⟨ha, hb, -, -⟩ := runBlocks_trace_spec env blocks (initState q)
    (by simpa [initState] using h4)
  constructor
  · rw [ha]
    simp [initState, toolCallsOf]
  · rw [hb]
    simp [initState, completionCount]
    omega

def envC3 : Env :=
  { sessionInit := Except.ok (), listTools := Except.ok [],
    firstCompletion := Except.ok [ContentBlock.text "a",
      ContentBlock.toolUse "i1" "alpha" "u", ContentBlock.toolUse "i2" "beta" "v"],
    toolOutcome := fun _ => Except.ok "r",
    followupCompletion := fun _ => Except.ok [ContentBlock.text "f"] }

theorem tool_calls_in_order_counts_witness :
    toolCallsOf (process_query envC3 "q").1
        = toolRequests [ContentBlock.text "a", ContentBlock.toolUse "i1" "alpha" "u",
            ContentBlock.toolUse "i2" "beta" "v"]
    ∧ completionCount (process_query envC3 "q").1
        = (toolRequests [ContentBlock.text "a", ContentBlock.toolUse "i1" "alpha" "u",
            ContentBlock.toolUse "i2" "beta" "v"]).length + 1 :=
  tool_calls_in_order_counts envC3 "q" [] _ rfl rfl rfl (fun _ _ => ⟨"r", rfl⟩)

def envC4 : Env :=
  { sessionInit := Except.ok (), listTools := Except.ok [],
    firstCompletion := Except.ok [ContentBlock.toolUse "t1" "alpha" "x",
                                  ContentBlock.toolUse "t2" "beta" "y"],
    toolOutcome := fun _ => Except.ok "res",
    followupCompletion := fun _ => Except.ok [ContentBlock.text "done"] }

/-- Claim C4 counterexample: a first response with two `tool_use` blocks,
both tools succeeding.  The loop re-queries the model between the two
sibling tool requests: the external-call trace is completion, tool,
completion, tool, completion, and the total number of completion calls is
3, not the 2 (initial plus a single final re-query) the claim implies. -/
theorem requery_between_siblings_cex :
    (process_query envC4 "q").1.map Event.kind
      = [EventKind.completion, EventKind.tool, EventKind.completion,
         EventKind.tool, EventKind.completion]
    ∧ completionCount (process_query envC4 "q").1 ≠ 2 := by
  constructor
  · rfl
  · decide

/-- Claim C4 as amended: the loop re-queries the model once after each
`tool_use` block of the first response, immediately after splicing that
tool's result (not once after all blocks): when every tool call succeeds
the call trace is the initial completion call followed, per block, by its
tool call immediately followed by its follow-up completion call. -/
theorem requery_after_each_tool_block (env : Env) (q : String) (tools : List Tool)
    (blocks : List ContentBlock)
    (h1 : env.sessionInit = Except.ok ()) (h2 : env.listTools = Except.ok tools)
    (h3 : env.firstCompletion = Except.ok blocks)
    (h4 : ∀ i, i < (toolRequests blocks).length → ∃ p, env.toolOutcome i = Except.ok p) :
    (process_query env q).1.map Event.kind
      = EventKind.completion :: (blocks.map kindDelta).flatten := by
  simp only [process_query, h1, h2, h3]
  obtain ⟨-, -, hk, -⟩ := runBlocks_trace_spec env blocks (initState q)
    (by simpa [initState] using h4)
  rw [hk]
  simp [initState, Event.kind]

theorem requery_after_each_tool_block_witness :
    (process_query envC4 "q").1.map Event.kind
      = EventKind.completion
          :: ([ContentBlock.toolUse "t1" "alpha" "x",
               ContentBlock.toolUse "t2" "beta" "y"].map kindDelta).flatten :=
  requery_after_each_tool_block envC4 "q" [] _ rfl rfl rfl (fun _ _ => ⟨"res", rfl⟩)

/-- Claim C5: follow-up completion responses are consumed for their text
blocks only.  First conjunct: the external-call trace of a query is
independent of the contents of every follow-up response, so a `tool_use`
block occurring in a follow-up response triggers no tool call and no
further completion call.  Second conjunct: processing a successful
`tool_use` block appends to `final_text` exactly the tool marker followed
by the text strings of the follow-up response's text blocks. -/
theorem followup_blocks_not_executed (env : Env) (q : String) :
    (∀ g, (process_query { env with followupCompletion := g } q).1
        = (process_query env q).1)
    ∧ (∀ (st : LoopState) (tid name input payload : String)
          (fblocks : List ContentBlock),
        env.toolOutcome st.t = Except.ok payload →
        env.followupCompletion st.f = Except.ok fblocks →
        (processBlock env st (ContentBlock.toolUse tid name input)).finalText
          = st.finalText ++ toolMarker name input :: textsOf fblocks) := by
  constructor
  · intro g
    cases hs : env.sessionInit with
    | error cs => simp [process_query, hs]
    | ok u =>
      cases hl : env.listTools with
      | error cs => simp [process_query, hs, hl]
      | ok tools =>
        cases hf : env.firstCompletion with
        | error cs => simp [process_query, hs, hl, hf]
        | ok blocks =>
          simp only [process_query, hs, hl, hf]
          have := runBlocks_followup_agree { env with followupCompletion := g } env rfl
            blocks (initState q) (initState q) ⟨rfl, rfl, rfl, rfl, rfl⟩
          rw [hs, hl, hf] at this
          exact this.2.2.2.2
  · intro st tid name input payload fblocks hto hfo
    simp [processBlock, hto, hfo]

def envC5 : Env :=
  { sessionInit := Except.ok (), listTools := Except.ok [],
    firstCompletion := Except.ok [ContentBlock.toolUse "t1" "alpha" "x"],
    toolOutcome := fun _ => Except.ok "res",
    followupCompletion := fun _ => Except.ok [ContentBlock.text "followup text",
      ContentBlock.toolUse "t2" "beta" "y"] }

theorem followup_blocks_not_executed_witness :
    envC5.toolOutcome (initState "q").t = Except.ok "res"
    ∧ (processBlock envC5 (initState "q") (ContentBlock.toolUse "t1" "alpha" "x")).finalText
        = (initState "q").finalText ++ toolMarker "alpha" "x"
            :: textsOf [ContentBlock.text "followup text", ContentBlock.toolUse "t2" "beta" "y"] :=
  ⟨rfl, (followup_blocks_not_executed envC5 "q").2 (initState "q") "t1" "alpha" "x" "res"
    [ContentBlock.text "followup text", ContentBlock.toolUse "t2" "beta" "y"] rfl rfl⟩

/-- Claim C6: if establishing the ToolService session (connection open,
handshake, or `initialize`) fails, `process_query` raises the wrapped
aggregate `RuntimeError`, the endpoint returns a server-error (500)
response carrying it, and neither `call_tool` nor the completion service
is ever invoked (the external-call trace is empty). -/
theorem session_failure_fails_query (env : Env) (q : String) (cs : List String)
    (h : env.sessionInit = Except.error cs) :
    process_query env q = ([], Except.error (PyError.runtimeError (aggregateMsg cs)))
    ∧ handle_query (process_query env q).2
        = { status := 500, detail := aggregateMsg cs } := by
  constructor
  · simp [process_query, h]
  · simp [process_query, h, handle_query]

def envC6 : Env :=
  { sessionInit := Except.error ["connection refused"],
    listTools := Except.ok [], firstCompletion := Except.ok [],
    toolOutcome := fun _ => Except.ok "", followupCompletion := fun _ => Except.ok [] }

theorem session_failure_fails_query_witness :
    envC6.sessionInit = Except.error ["connection refused"]
    ∧ (process_query envC6 "q"
          = ([], Except.error (PyError.runtimeError (aggregateMsg ["connection refused"])))
       ∧ handle_query (process_query envC6 "q").2
          = { status := 500, detail := aggregateMsg ["connection refused"] }) :=
  ⟨rfl, session_failure_fails_query envC6 "q" ["connection refused"] rfl⟩

/-- Claim C7: every failing outcome of `process_query` is one aggregate
`RuntimeError` wrapping the full set of underlying causes of the failed
stage (session establishment, tool listing, or first completion call —
the only stages whose faults escape the loop), and `handle_query` maps it
to a 500 server-error response carrying the aggregate description, while
any other unexpected fault at the endpoint maps to a 400 client-error
response. -/
theorem aggregate_error_mapping (env : Env) (q : String) :
    (∀ e, (process_query env q).2 = Except.error e →
      ∃ cs, (env.sessionInit = Except.error cs ∨ env.listTools = Except.error cs
              ∨ env.firstCompletion = Except.error cs)
        ∧ e = PyError.runtimeError (aggregateMsg cs)
        ∧ handle_query (Except.error e) = { status := 500, detail := aggregateMsg cs })
    ∧ (∀ m, handle_query (Except.error (PyError.otherError m))
        = { status := 400, detail := m }) := by
  constructor
  · intro e he
    cases hs : env.sessionInit with
    | error cs =>
      simp [process_query, hs] at he
      subst he
      exact ⟨cs, Or.inl rfl, rfl, rfl⟩
    | ok u =>
      cases hl : env.listTools with
      | error cs =>
        simp [process_query, hs, hl] at he
        subst he
        exact ⟨cs, Or.inr (Or.inl rfl), rfl, rfl⟩
      | ok tools =>
        cases hf : env.firstCompletion with
        | error cs =>
          simp [process_query, hs, hl, hf] at he
          subst he
          exact ⟨cs, Or.inr (Or.inr rfl), rfl, rfl⟩
        | ok blocks =>
          exact absurd he (by simp [process_query, hs, hl, hf])
  · intro m
    rfl

def envC7 : Env :=
  { sessionInit := Except.ok (), listTools := Except.error ["tool listing failed"],
    firstCompletion := Except.ok [],
    toolOutcome := fun _ => Except.ok "", followupCompletion := fun _ => Except.ok [] }

theorem aggregate_error_mapping_witness :
    (process_query envC7 "q").2
        = Except.error (PyError.runtimeError (aggregateMsg ["tool listing failed"]))
    ∧ ∃ cs, (envC7.sessionInit = Except.error cs ∨ envC7.listTools = Except.error cs
              ∨ envC7.firstCompletion = Except.error cs)
        ∧ PyError.runtimeError (aggregateMsg ["tool listing failed"])
            = PyError.runtimeError (aggregateMsg cs)
        ∧ handle_query (Except.error (PyError.runtimeError (aggregateMsg ["tool listing failed"])))
            = { status := 500, detail := aggregateMsg cs } :=
  ⟨rfl, (aggregate_error_mapping envC7 "q").1
    (PyError.runtimeError (aggregateMsg ["tool listing failed"])) rfl⟩

def envC8 : Env :=
  { sessionInit := Except.ok (), listTools := Except.ok [],
    firstCompletion := Except.ok [ContentBlock.toolUse "t9" "beta" "arg"],
    toolOutcome := fun _ => Except.ok "res",
    followupCompletion := fun _ => Except.error "rate limited" }

/-- Claim C8 counterexample: the follow-up completion call made after a
successful tool result fails with a provider error, yet the query does
not reach the Failed terminal: `process_query` returns a normal (degraded)
answer, because the follow-up `messages.create` sits inside the per-tool
`try` whose `except Exception` converts the failure into an inline
tool-error note. -/
theorem followup_completion_error_not_fatal_cex :
    (process_query envC8 "q").2
      = Except.ok "[Tool `beta` called with args arg]\nError calling tool `beta`: rate limited" :=
  rfl

/-- Claim C8 as amended: an API-level completion failure is fatal only for
the first completion call — there it escapes to the `except*` handler and
the query fails with the aggregate error, and with session and tool
listing up nothing else can make the query fail: once the first response
is obtained the query always completes normally, a failing follow-up
completion call being caught by the per-tool handler and appended as a
tool-error note after the tool marker. -/
theorem completion_error_fatality (env : Env) (q : String) (tools : List Tool)
    (h1 : env.sessionInit = Except.ok ()) (h2 : env.listTools = Except.ok tools) :
    (∀ cs, env.firstCompletion = Except.error cs →
        (process_query env q).2 = Except.error (PyError.runtimeError (aggregateMsg cs)))
    ∧ (∀ blocks, env.firstCompletion = Except.ok blocks →
        ∃ s, (process_query env q).2 = Except.ok s)
    ∧ (∀ (st : LoopState) (tid name input payload cause : String),
        env.toolOutcome st.t = Except.ok payload →
        env.followupCompletion st.f = Except.error cause →
        (processBlock env st (ContentBlock.toolUse tid name input)).finalText
          = st.finalText ++ [toolMarker name input, toolErrorNote name cause]) := by
  refine ⟨?_, ?_, ?_⟩
  · intro cs hf
    simp [process_query, h1, h2, hf]
  · intro blocks hf
    refine ⟨String.intercalate "\n" (runBlocks env (initState q) blocks).finalText, ?_⟩
    simp [process_query, h1, h2, hf]
  · intro st tid name input payload cause hto hfo
    simp [processBlock, hto, hfo]

theorem completion_error_fatality_witness :
    envC8.followupCompletion (initState "q").f = Except.error "rate limited"
    ∧ (processBlock envC8 (initState "q") (ContentBlock.toolUse "t9" "beta" "arg")).finalText
        = (initState "q").finalText
            ++ [toolMarker "beta" "arg", toolErrorNote "beta" "rate limited"] :=
  ⟨rfl, (completion_error_fatality envC8 "q" [] rfl rfl).2.2 (initState "q")
    "t9" "beta" "arg" "res" "rate limited" rfl rfl⟩

def envC9 : Env :=
  { sessionInit := Except.ok (), listTools := Except.ok [],
    firstCompletion := Except.ok [ContentBlock.toolUse "t1" "alpha" "x",
                                  ContentBlock.toolUse "t2" "beta" "y"],
    toolOutcome := fun k => if k == 0 then Except.ok "r1" else Except.ok "r2",
    followupCompletion := fun _ => Except.ok [] }

/-- Claim C9 is violated by the code: `assistant_content` is aliased into
every assistant turn appended to `messages`, so an already-appended turn
is mutated in place by later blocks of the same response.  On a first
response with two successful `tool_use` blocks, the transcript sent by
the first follow-up completion call (trace index 2) has the assistant
turn `[toolUse t1]`, while the transcript sent by the second follow-up
call (trace index 4) shows that same turn changed in place to
`[toolUse t1, toolUse t2]` (and the buffer appended a second time), so
the earlier transcript is not preserved as a prefix of the later one. -/
theorem transcript_mutated_in_place :
    transcriptAt (process_query envC9 "book").1 2
      = some [RTurn.user "book",
              RTurn.assistant [ContentBlock.toolUse "t1" "alpha" "x"],
              RTurn.toolResult "t1" "r1"]
    ∧ transcriptAt (process_query envC9 "book").1 4
      = some [RTurn.user "book",
              RTurn.assistant [ContentBlock.toolUse "t1" "alpha" "x",
                               ContentBlock.toolUse "t2" "beta" "y"],
              RTurn.toolResult "t1" "r1",
              RTurn.assistant [ContentBlock.toolUse "t1" "alpha" "x",
                               ContentBlock.toolUse "t2" "beta" "y"],
              RTurn.toolResult "t2" "r2"]
    ∧ ([RTurn.user "book",
        RTurn.assistant [ContentBlock.toolUse "t1" "alpha" "x"],
        RTurn.toolResult "t1" "r1"])[1]?
      ≠ ([RTurn.user "book",
          RTurn.assistant [ContentBlock.toolUse "t1" "alpha" "x",
                           ContentBlock.toolUse "t2" "beta" "y"],
          RTurn.toolResult "t1" "r1",
          RTurn.assistant [ContentBlock.toolUse "t1" "alpha" "x",
                           ContentBlock.toolUse "t2" "beta" "y"],
          RTurn.toolResult "t2" "r2"])[1]? := by
  refine ⟨rfl, rfl, ?_⟩
  decide

/-- Claim C10: first-response blocks that are neither `text` nor
`tool_use` are ignored entirely — deleting them from the first response
changes neither the external-call trace nor the returned answer — and a
first response with zero content blocks yields the empty string. -/
theorem unknown_blocks_ignored (env : Env) (q : String) (tools : List Tool)
    (h1 : env.sessionInit = Except.ok ()) (h2 : env.listTools = Except.ok tools) :
    (∀ blocks,
      process_query
          { env with firstCompletion := Except.ok (blocks.filter fun b => !b.isOther) } q
        = process_query { env with firstCompletion := Except.ok blocks } q)
    ∧ process_query { env with firstCompletion := Except.ok [] } q
        = ([Event.completionCall [RTurn.user q]], Except.ok "") := by
  constructor
  · intro blocks
    simp only [process_query, h1, h2]
    rw [runBlocks_filter_other]
    exact congrArg
      (fun st : LoopState =>
        ((st.trace, Except.ok (String.intercalate "\n" st.finalText))
          : List Event × Except PyError String))
      (runBlocks_env_congr
        { sessionInit := Except.ok (), listTools := Except.ok tools,
          firstCompletion := Except.ok (blocks.filter fun b => !b.isOther),
          toolOutcome := env.toolOutcome, followupCompletion := env.followupCompletion }
        { sessionInit := Except.ok (), listTools := Except.ok tools,
          firstCompletion := Except.ok blocks,
          toolOutcome := env.toolOutcome, followupCompletion := env.followupCompletion }
        rfl rfl blocks (initState q))
  · simp only [process_query, h1, h2]
    simp only [runBlocks, initState, resolve, resolveTurn, List.map]
    rfl

def envC10 : Env :=
  { sessionInit := Except.ok (), listTools := Except.ok [],
    firstCompletion := Except.ok [ContentBlock.other "thinking"],
    toolOutcome := fun _ => Except.ok "", followupCompletion := fun _ => Except.ok [] }

theorem unknown_blocks_ignored_witness :
    envC10.sessionInit = Except.ok ()
    ∧ process_query
          { envC10 with
            firstCompletion := Except.ok
              ([ContentBlock.other "thinking"].filter fun b => !b.isOther) } "q"
        = process_query
          { envC10 with firstCompletion := Except.ok [ContentBlock.other "thinking"] } "q"
    ∧ process_query { envC10 with firstCompletion := Except.ok [] } "q"
        = ([Event.completionCall [RTurn.user "q"]], Except.ok "") :=
  ⟨rfl, (unknown_blocks_ignored envC10 "q" [] rfl rfl).1 [ContentBlock.other "thinking"],
   (unknown_blocks_ignored envC10 "q" [] rfl rfl).2⟩
